import Mathlib

/-!
Verification of the collaborative-edit protocol layer of
`src/vim73/src/vim_pepper.c` (collab-vim).

The file shallowly embeds the protocol-relevant parts of `vim_pepper.c`:
the `collabedit_T` tagged union, the inbound decode loop `js_msgloop`, the
outbound encoder `collab_remoteapply`, the PP_Var helpers `var_to_cstr` and
`pp_strcmp`, and (since `collab_structs.c` is not in the tree) a model of the
`collab_queue` FIFO taken from the specification.  Machine 32-bit integers
are modelled as `Int` with explicit wrapping where the code converts through
`PP_MakeInt32`; C strings are modelled as their contents up to the NUL
terminator (`String`); malloc'd buffers, where ownership matters, live in an
explicit heap (`Heap`).
-/

namespace VimPepper

/-- A Pepper `PP_Var` as used by `vim_pepper.c`: the undefined var (what
`ppb_dict->Get` returns for a missing key), a 32-bit integer var, a UTF-8
string var, and a dictionary var (an ordered string-keyed map).  Dictionary
keys are string vars compared by contents, so they are modelled as `String`. -/
inductive PP_Var where
  | undefined : PP_Var
  | int32 : Int → PP_Var
  | str : String → PP_Var
  | dict : List (String × PP_Var) → PP_Var

/-- `ppb_dict->HasKey`. -/
def dictHasKey (entries : List (String × PP_Var)) (k : String) : Bool :=
  entries.any (fun kv => kv.1 == k)

/-- `ppb_dict->Get`: the value stored for `k`, or the undefined var when the
key is absent. -/
def dictGet (entries : List (String × PP_Var)) (k : String) : PP_Var :=
  match entries.find? (fun kv => kv.1 == k) with
  | some kv => kv.2
  | none => PP_Var.undefined

/-- `ppb_dict->Set`: replace the value under an existing key, else add the
key at the end (the map is ordered by insertion). -/
def dictSet (entries : List (String × PP_Var)) (k : String) (v : PP_Var) :
    List (String × PP_Var) :=
  if dictHasKey entries k then
    entries.map (fun kv => if kv.1 == k then (k, v) else kv)
  else entries ++ [(k, v)]

/-- `ppb_var->VarToUtf8`: the UTF-8 contents of a string var; for a
non-string var it yields NULL with length 0, read here as the empty
string. -/
def varToUtf8 : PP_Var → String
  | PP_Var.str s => s
  | _ => ""

/-- `var_to_cstr` (value level): the contents of the NUL-terminated C string
that the function builds by `malloc` + `strncpy` from the var's UTF-8 data.
The heap-level version `var_to_cstr_h` below additionally records that the
buffer is freshly allocated. -/
def var_to_cstr (v : PP_Var) : String := varToUtf8 v

/-- `.value.as_int` of a var: the 32-bit payload of an int var.  For the
undefined var (the result of `Get` on a missing key) the zero-initialized
union reads 0. -/
def asInt : PP_Var → Int
  | PP_Var.int32 v => v
  | _ => 0

/-- C `strncmp` restricted to the first `n` characters of two NUL-free
strings (as used by `pp_strcmp`, where `n` never exceeds either length). -/
def strncmp : List Char → List Char → Nat → Int
  | _, _, 0 => 0
  | [], _, _ + 1 => 0
  | _, [], _ + 1 => 0
  | c1 :: a, c2 :: b, n + 1 =>
      if c1 = c2 then strncmp a b n else (c1.toNat : Int) - (c2.toNat : Int)

/-- `pp_strcmp`: `strncmp` on the shorter length, then the length difference
breaks the tie, exactly as in the C source. -/
def pp_strcmp (v1 v2 : PP_Var) : Int :=
  let s1 := (varToUtf8 v1).data
  let s2 := (varToUtf8 v2).data
  let n := min s1.length s2.length
  let cmp := strncmp s1 s2 n
  if cmp = 0 then (s1.length : Int) - (s2.length : Int) else cmp

/-- The discriminator string constants built in `nacl_main`. -/
def type_append_line : PP_Var := PP_Var.str "append_line"

def type_insert_text : PP_Var := PP_Var.str "insert_text"

def type_remove_line : PP_Var := PP_Var.str "remove_line"

def type_delete_text : PP_Var := PP_Var.str "delete_text"

def type_replace_line : PP_Var := PP_Var.str "replace_line"

/-- The key string constants built in `nacl_main`. -/
def type_key : String := "collabedit_type"

def line_key : String := "line"

def text_key : String := "text"

def index_key : String := "index"

def length_key : String := "length"

/-- `collabedit_T`: the tagged union of the five collaborative edit kinds.
The `file_buf` back-reference (routing only, set to `curbuf` on receipt and
not transmitted on the wire) is outside the protocol payload and omitted.
Integer fields are the 32-bit values carried on the wire, text fields the
contents of the owned C string buffer. -/
inductive collabedit_T where
  | append_line : Int → String → collabedit_T
  | insert_text : Int → Int → String → collabedit_T
  | remove_line : Int → collabedit_T
  | delete_text : Int → Int → Int → collabedit_T
  | replace_line : Int → String → collabedit_T
deriving DecidableEq

/-- The outcome of one `js_msgloop` iteration's parse of an inbound message,
read off the control flow of the C loop: `ok` when an edit is built and
enqueued, `notAnEdit` for the `continue` branch (not a dictionary, or no
`collabedit_type` key), `unknownKind` for the final `else` branch
(unrecognized discriminator, edit freed).  The source has no further
outcomes: a recognized discriminator always yields `ok`. -/
inductive DecodeResult where
  | ok : collabedit_T → DecodeResult
  | notAnEdit : DecodeResult
  | unknownKind : DecodeResult
deriving DecidableEq

/-- The parse performed by one iteration of `js_msgloop` on the event var:
filter to dictionaries carrying `collabedit_type`, then compare the
discriminator against the five type constants in source order and read the
fields of the matching variant. -/
def js_decode (msg : PP_Var) : DecodeResult :=
  match msg with
  | PP_Var.dict entries =>
    if dictHasKey entries type_key then
      let var_type := dictGet entries type_key
      if pp_strcmp var_type type_append_line = 0 then
        DecodeResult.ok (collabedit_T.append_line
          (asInt (dictGet entries line_key))
          (var_to_cstr (dictGet entries text_key)))
      else if pp_strcmp var_type type_insert_text = 0 then
        DecodeResult.ok (collabedit_T.insert_text
          (asInt (dictGet entries line_key))
          (asInt (dictGet entries index_key))
          (var_to_cstr (dictGet entries text_key)))
      else if pp_strcmp var_type type_remove_line = 0 then
        DecodeResult.ok (collabedit_T.remove_line
          (asInt (dictGet entries line_key)))
      else if pp_strcmp var_type type_delete_text = 0 then
        DecodeResult.ok (collabedit_T.delete_text
          (asInt (dictGet entries line_key))
          (asInt (dictGet entries index_key))
          (asInt (dictGet entries length_key)))
      else if pp_strcmp var_type type_replace_line = 0 then
        DecodeResult.ok (collabedit_T.replace_line
          (asInt (dictGet entries line_key))
          (var_to_cstr (dictGet entries text_key)))
      else DecodeResult.unknownKind
    else DecodeResult.notAnEdit
  | _ => DecodeResult.notAnEdit

/-- One iteration of `js_msgloop` acting on the `collab_queue` contents:
when the parse yields an edit it is passed to `collab_enqueue` (appended at
the tail), otherwise the queue is untouched and the loop continues. -/
def js_msgloop_step (msg : PP_Var) (queue : List collabedit_T) :
    List collabedit_T :=
  match js_decode msg with
  | DecodeResult.ok edit => queue ++ [edit]
  | _ => queue

/-- The `js_msgloop` receive loop over a finite trace of inbound events:
each event is handled by `js_msgloop_step` and the loop returns to waiting
for the next one. -/
def js_msgloop (msgs : List PP_Var) (queue : List collabedit_T) :
    List collabedit_T :=
  msgs.foldl (fun q m => js_msgloop_step m q) queue

/-- `PP_MakeInt32`: the C conversion of the field value to `int32_t`
(two's-complement wrap into `[-2^31, 2^31)`). -/
def toInt32 (v : Int) : Int := (v + 2 ^ 31) % 2 ^ 32 - 2 ^ 31

/-- `PP_MakeInt32` as a var constructor. -/
def PP_MakeInt32 (v : Int) : PP_Var := PP_Var.int32 (toInt32 v)

/-- `collab_remoteapply`: build the wire dictionary for an edit, switching
on its tag and setting exactly the fields of that variant (the dictionary
starts empty from `ppb_dict->Create`, so each `Set` appends). The resulting
entry list is the message posted to JS. -/
def collab_remoteapply (edit : collabedit_T) : List (String × PP_Var) :=
  match edit with
  | collabedit_T.append_line line text =>
      let d := dictSet [] type_key type_append_line
      let d := dictSet d line_key (PP_MakeInt32 line)
      let d := dictSet d text_key (PP_Var.str text)
      d
  | collabedit_T.insert_text line index text =>
      let d := dictSet [] type_key type_insert_text
      let d := dictSet d line_key (PP_MakeInt32 line)
      let d := dictSet d index_key (PP_MakeInt32 index)
      let d := dictSet d text_key (PP_Var.str text)
      d
  | collabedit_T.remove_line line =>
      let d := dictSet [] type_key type_remove_line
      let d := dictSet d line_key (PP_MakeInt32 line)
      d
  | collabedit_T.delete_text line index length =>
      let d := dictSet [] type_key type_delete_text
      let d := dictSet d line_key (PP_MakeInt32 line)
      let d := dictSet d index_key (PP_MakeInt32 index)
      let d := dictSet d length_key (PP_MakeInt32 length)
      d
  | collabedit_T.replace_line line text =>
      let d := dictSet [] type_key type_replace_line
      let d := dictSet d line_key (PP_MakeInt32 line)
      let d := dictSet d text_key (PP_Var.str text)
      d

/-- A constructible `collabedit_T` in the sense of the data model: every
`line` / `index` / `length` field is a non-negative 32-bit signed integer. -/
def wf : collabedit_T → Prop
  | collabedit_T.append_line line _ => 0 ≤ line ∧ line < 2 ^ 31
  | collabedit_T.insert_text line index _ =>
      (0 ≤ line ∧ line < 2 ^ 31) ∧ (0 ≤ index ∧ index < 2 ^ 31)
  | collabedit_T.remove_line line => 0 ≤ line ∧ line < 2 ^ 31
  | collabedit_T.delete_text line index length =>
      (0 ≤ line ∧ line < 2 ^ 31) ∧ (0 ≤ index ∧ index < 2 ^ 31) ∧
        (0 ≤ length ∧ length < 2 ^ 31)
  | collabedit_T.replace_line line _ => 0 ≤ line ∧ line < 2 ^ 31

lemma toInt32_eq_self {v : Int} (h0 : 0 ≤ v) (h1 : v < 2 ^ 31) :
    toInt32 v = v := by
  unfold toInt32
  have ha : (0 : Int) ≤ v + 2 ^ 31 := by omega
  have hb : v + 2 ^ 31 < 2 ^ 32 := by omega
  rw [Int.emod_eq_of_lt ha hb]
  omega

/-! ### Heap model of malloc'd text buffers

`var_to_cstr` mallocs a fresh buffer and copies the var's bytes into it; the
resulting `collabedit_T` carries a pointer to that buffer.  To reason about
ownership, buffers live in an explicit heap: a list of cells addressed by
position, where `none` marks a freed cell.  Allocation always returns the
fresh address `h.length`, so every address handed out earlier is strictly
below the allocation frontier. -/

/-- The C heap of text buffers: cell `a` holds the buffer at address `a`,
or `none` once freed. -/
abbrev Heap := List (Option String)

/-- Dereference address `a` (out-of-range reads as unallocated). -/
def heapLookup (h : Heap) (a : Nat) : Option String :=
  (List.get? h a).getD none

/-- Overwrite (or with `none`: free) the cell at address `a`. -/
def heapSet (h : Heap) (a : Nat) (c : Option String) : Heap :=
  List.set h a c

/-- `var_to_cstr`, heap level: `malloc` a fresh buffer and copy the var's
UTF-8 bytes (plus the NUL) into it, returning the new heap and the fresh
address. -/
def var_to_cstr_h (h : Heap) (v : PP_Var) : Heap × Nat :=
  (h ++ [some (varToUtf8 v)], h.length)

/-- `collabedit_T` with its text field as a heap address (the `char_u *`
pointer of the C struct). -/
inductive collabedit_H where
  | append_line : Int → Nat → collabedit_H
  | insert_text : Int → Int → Nat → collabedit_H
  | remove_line : Int → collabedit_H
  | delete_text : Int → Int → Int → collabedit_H
  | replace_line : Int → Nat → collabedit_H
deriving DecidableEq

/-- The address of the edit's text buffer, when its variant has one. -/
def textAddrH : collabedit_H → Option Nat
  | collabedit_H.append_line _ t => some t
  | collabedit_H.insert_text _ _ t => some t
  | collabedit_H.replace_line _ t => some t
  | _ => none

/-- The parse outcome at the heap level. -/
inductive DecodeResultH where
  | ok : collabedit_H → DecodeResultH
  | notAnEdit : DecodeResultH
  | unknownKind : DecodeResultH
deriving DecidableEq

/-- The `js_msgloop` parse with the text-copy allocations made explicit:
identical control flow to `js_decode`, but each `var_to_cstr` call mallocs a
fresh cell in the heap and the edit stores that address. -/
def js_decode_h (h : Heap) (msg : PP_Var) : Heap × DecodeResultH :=
  match msg with
  | PP_Var.dict entries =>
    if dictHasKey entries type_key then
      let var_type := dictGet entries type_key
      if pp_strcmp var_type type_append_line = 0 then
        let r := var_to_cstr_h h (dictGet entries text_key)
        (r.1, DecodeResultH.ok (collabedit_H.append_line
          (asInt (dictGet entries line_key)) r.2))
      else if pp_strcmp var_type type_insert_text = 0 then
        let r := var_to_cstr_h h (dictGet entries text_key)
        (r.1, DecodeResultH.ok (collabedit_H.insert_text
          (asInt (dictGet entries line_key))
          (asInt (dictGet entries index_key)) r.2))
      else if pp_strcmp var_type type_remove_line = 0 then
        (h, DecodeResultH.ok (collabedit_H.remove_line
          (asInt (dictGet entries line_key))))
      else if pp_strcmp var_type type_delete_text = 0 then
        (h, DecodeResultH.ok (collabedit_H.delete_text
          (asInt (dictGet entries line_key))
          (asInt (dictGet entries index_key))
          (asInt (dictGet entries length_key))))
      else if pp_strcmp var_type type_replace_line = 0 then
        let r := var_to_cstr_h h (dictGet entries text_key)
        (r.1, DecodeResultH.ok (collabedit_H.replace_line
          (asInt (dictGet entries line_key)) r.2))
      else (h, DecodeResultH.unknownKind)
    else (h, DecodeResultH.notAnEdit)
  | _ => (h, DecodeResultH.notAnEdit)

/-- Read an edit's text buffer back from the heap (`UTF8_TO_VAR` applies
`strlen` to the pointer; a freed or dangling buffer would be undefined
behaviour, read here as the empty string, a case the theorems exclude). -/
def strOfAddr (h : Heap) (a : Nat) : String := (heapLookup h a).getD ""

/-- The `collabedit_T` value an in-heap edit denotes: its fields with the
text pointer dereferenced. -/
def readback (h : Heap) : collabedit_H → collabedit_T
  | collabedit_H.append_line line t =>
      collabedit_T.append_line line (strOfAddr h t)
  | collabedit_H.insert_text line index t =>
      collabedit_T.insert_text line index (strOfAddr h t)
  | collabedit_H.remove_line line => collabedit_T.remove_line line
  | collabedit_H.delete_text line index length =>
      collabedit_T.delete_text line index length
  | collabedit_H.replace_line line t =>
      collabedit_T.replace_line line (strOfAddr h t)

/-- `UTF8_TO_VAR` applied to an edit's text pointer: `VarFromUtf8` copies
the bytes of the C buffer into a new Pepper var in the browser var system —
a read of the C heap, never a write or a free of it. -/
def UTF8_TO_VAR_h (h : Heap) (a : Nat) : Heap × PP_Var :=
  (h, PP_Var.str (strOfAddr h a))

/-- `collab_remoteapply`, heap level: switch on the edit's tag, build the
wire dictionary by `Set` calls reading the edit's fields (the text buffer is
read through `UTF8_TO_VAR`), post the dictionary and release it.  The vars
created (`Create`, `VarFromUtf8`) and released live in the browser var
system, so the C heap is only ever read.  Result: the heap after the call
and the posted wire message. -/
def collab_remoteapply_h (h : Heap) (edit : collabedit_H) : Heap × PP_Var :=
  match edit with
  | collabedit_H.append_line line t =>
      let d := dictSet [] type_key type_append_line
      let d := dictSet d line_key (PP_MakeInt32 line)
      let r := UTF8_TO_VAR_h h t
      let d := dictSet d text_key r.2
      (r.1, PP_Var.dict d)
  | collabedit_H.insert_text line index t =>
      let d := dictSet [] type_key type_insert_text
      let d := dictSet d line_key (PP_MakeInt32 line)
      let d := dictSet d index_key (PP_MakeInt32 index)
      let r := UTF8_TO_VAR_h h t
      let d := dictSet d text_key r.2
      (r.1, PP_Var.dict d)
  | collabedit_H.remove_line line =>
      let d := dictSet [] type_key type_remove_line
      let d := dictSet d line_key (PP_MakeInt32 line)
      (h, PP_Var.dict d)
  | collabedit_H.delete_text line index length =>
      let d := dictSet [] type_key type_delete_text
      let d := dictSet d line_key (PP_MakeInt32 line)
      let d := dictSet d index_key (PP_MakeInt32 index)
      let d := dictSet d length_key (PP_MakeInt32 length)
      (h, PP_Var.dict d)
  | collabedit_H.replace_line line t =>
      let d := dictSet [] type_key type_replace_line
      let d := dictSet d line_key (PP_MakeInt32 line)
      let r := UTF8_TO_VAR_h h t
      let d := dictSet d text_key r.2
      (r.1, PP_Var.dict d)

/-- `PPB_Messaging.PostMessage`: hand `msg` to the bridge; `delivered` is
whether the bridge actually delivers it.  The C signature returns `void`,
so the outcome is invisible to the C caller; the model's result is what JS
receives. -/
def PostMessage (msg : PP_Var) (delivered : Bool) : Option PP_Var :=
  if delivered then some msg else none

/-- A full `collab_remoteapply` call as its two observers see it: first
component what the bridge delivers to JS, second component what the C caller
receives (the function's return type is `void`). -/
def collab_remoteapply_call (edit : collabedit_T) (delivered : Bool) :
    Option PP_Var × Unit :=
  (PostMessage (PP_Var.dict (collab_remoteapply edit)) delivered, ())

/-! ### EditQueue model

Modelled from the spec: `collab_enqueue` / the EditQueue of `collab_structs.c`
is not under `src/` (only its caller `js_msgloop` is), so the queue is taken
from §4.4/§5 of the specification: an unbounded FIFO whose `push` and
`pop_blocking` are each atomic under the mutex + condition-variable
discipline, with a blocked `pop_blocking` having no effect until an item is
available.  A concurrent execution is any interleaving of these atomic
steps. -/

/-- Producer/consumer system state: operations the producer has yet to push,
the queue contents, and the sequence the consumer has observed so far. -/
structure QState where
  pending : List collabedit_T
  queue : List collabedit_T
  consumed : List collabedit_T
deriving DecidableEq

/-- One atomic step: `true` is a producer step (push the next pending
operation at the tail), `false` a consumer step (`pop_blocking` removes the
head, or blocks — no effect — when the queue is empty). -/
def qstep : Bool → QState → QState
  | true, QState.mk (p :: ps) q c => QState.mk ps (q ++ [p]) c
  | true, QState.mk [] q c => QState.mk [] q c
  | false, QState.mk p (e :: q) c => QState.mk p q (c ++ [e])
  | false, QState.mk p [] c => QState.mk p [] c

/-- Run an arbitrary interleaving (schedule) of producer and consumer
steps. -/
def qrun (sched : List Bool) (s : QState) : QState :=
  sched.foldl (fun s b => qstep b s) s

/-! ### Claim theorems -/

/-- C1: for every constructible EditOperation `e` of any of the five
variants, decoding the WireMessage produced by `collab_remoteapply`'s
encoding of `e` yields an EditOperation equal to `e` field-for-field. -/
theorem C1_roundtrip (e : collabedit_T) (hw : wf e) :
    js_decode (PP_Var.dict (collab_remoteapply e)) = DecodeResult.ok e := by
  cases e with
  | append_line line text =>
      have h : js_decode (PP_Var.dict
            (collab_remoteapply (collabedit_T.append_line line text))) =
          DecodeResult.ok (collabedit_T.append_line (toInt32 line) text) := rfl
      rw [h, toInt32_eq_self hw.1 hw.2]
  | insert_text line index text =>
      have h : js_decode (PP_Var.dict
            (collab_remoteapply (collabedit_T.insert_text line index text))) =
          DecodeResult.ok
            (collabedit_T.insert_text (toInt32 line) (toInt32 index) text) := rfl
      rw [h, toInt32_eq_self hw.1.1 hw.1.2, toInt32_eq_self hw.2.1 hw.2.2]
  | remove_line line =>
      have h : js_decode (PP_Var.dict
            (collab_remoteapply (collabedit_T.remove_line line))) =
          DecodeResult.ok (collabedit_T.remove_line (toInt32 line)) := rfl
      rw [h, toInt32_eq_self hw.1 hw.2]
  | delete_text line index length =>
      have h : js_decode (PP_Var.dict
            (collab_remoteapply (collabedit_T.delete_text line index length))) =
          DecodeResult.ok (collabedit_T.delete_text (toInt32 line) (toInt32 index)
            (toInt32 length)) := rfl
      rw [h, toInt32_eq_self hw.1.1 hw.1.2, toInt32_eq_self hw.2.1.1 hw.2.1.2,
        toInt32_eq_self hw.2.2.1 hw.2.2.2]
  | replace_line line text =>
      have h : js_decode (PP_Var.dict
            (collab_remoteapply (collabedit_T.replace_line line text))) =
          DecodeResult.ok (collabedit_T.replace_line (toInt32 line) text) := rfl
      rw [h, toInt32_eq_self hw.1 hw.2]

/-- C1 witness: the spec's concrete case AppendLine(line 4, text "hello")
round-trips exactly. -/
theorem C1_roundtrip_witness :
    js_decode (PP_Var.dict (collab_remoteapply (collabedit_T.append_line 4 "hello"))) =
      DecodeResult.ok (collabedit_T.append_line 4 "hello") :=
  C1_roundtrip (collabedit_T.append_line 4 "hello") (by exact ⟨by decide, by decide⟩)

/-- C2: evaluation of `js_msgloop`'s parse at the failing input, an
otherwise well-formed insert_text message whose line is the negative value
-1.  The code performs no sign check on line, index or length: it builds
the EditOperation with line = -1 and enqueues it, where the claim (and
spec §4.1/§8.6) requires the decode to fail with InvalidField and nothing
to be enqueued.  The spec itself marks the unchecked acceptance a latent
defect of the original code (§4.1, §9). -/
theorem C2_negative_value_accepted :
    js_decode (PP_Var.dict [(type_key, PP_Var.str "insert_text"),
        (line_key, PP_Var.int32 (-1)), (index_key, PP_Var.int32 0),
        (text_key, PP_Var.str "a")]) =
      DecodeResult.ok (collabedit_T.insert_text (-1) 0 "a") ∧
    js_msgloop_step (PP_Var.dict [(type_key, PP_Var.str "insert_text"),
        (line_key, PP_Var.int32 (-1)), (index_key, PP_Var.int32 0),
        (text_key, PP_Var.str "a")]) [] =
      [collabedit_T.insert_text (-1) 0 "a"] :=
  ⟨by decide, by decide⟩

/-- C3 counterexample: an insert_text message lacking the index key is not
rejected with a MissingField outcome — the parse succeeds (the missing key
reads back as the undefined var, whose integer payload is 0) and the
operation IS pushed onto the queue, refuting the claim at this input. -/
theorem C3_counterexample :
    js_decode (PP_Var.dict [(type_key, PP_Var.str "insert_text"),
        (line_key, PP_Var.int32 2), (text_key, PP_Var.str "x")]) =
      DecodeResult.ok (collabedit_T.insert_text 2 0 "x") ∧
    js_msgloop_step (PP_Var.dict [(type_key, PP_Var.str "insert_text"),
        (line_key, PP_Var.int32 2), (text_key, PP_Var.str "x")]) [] =
      [collabedit_T.insert_text 2 0 "x"] :=
  ⟨by decide, by decide⟩

/-- C3 amended: a message with collabedit_type = "insert_text" but no index
key decodes successfully — `ppb_dict->Get` returns the undefined var for
the absent key and its integer payload reads as 0 — and the resulting
InsertText operation (index 0) is pushed onto the EditQueue; the code has
no MissingField outcome. -/
theorem C3_missing_field_decoded_as_zero (line : Int) (text : String)
    (q : List collabedit_T) :
    js_decode (PP_Var.dict [(type_key, PP_Var.str "insert_text"),
        (line_key, PP_Var.int32 line), (text_key, PP_Var.str text)]) =
      DecodeResult.ok (collabedit_T.insert_text line 0 text) ∧
    js_msgloop_step (PP_Var.dict [(type_key, PP_Var.str "insert_text"),
        (line_key, PP_Var.int32 line), (text_key, PP_Var.str text)]) q =
      q ++ [collabedit_T.insert_text line 0 text] :=
  ⟨rfl, rfl⟩

/-- C4: the receive loop is total and never leaves its loop: after any
finite trace of inbound events it handles the next message `m` — malformed
or not — by exactly one `js_msgloop_step` and returns to waiting, and that
step either leaves the queue untouched (skip) or appends the one decoded
operation (decode); there is no third outcome. -/
theorem C4_decode_or_skip (msgs : List PP_Var) (m : PP_Var)
    (q : List collabedit_T) :
    js_msgloop (msgs ++ [m]) q = js_msgloop_step m (js_msgloop msgs q) ∧
    (js_msgloop_step m (js_msgloop msgs q) = js_msgloop msgs q ∨
      ∃ e, js_decode m = DecodeResult.ok e ∧
        js_msgloop_step m (js_msgloop msgs q) = js_msgloop msgs q ++ [e]) := by
  constructor
  · simp [js_msgloop, List.foldl_append]
  · cases hd : js_decode m with
    | ok e => exact Or.inr ⟨e, rfl, by unfold js_msgloop_step; rw [hd]⟩
    | notAnEdit => exact Or.inl (by unfold js_msgloop_step; rw [hd])
    | unknownKind => exact Or.inl (by unfold js_msgloop_step; rw [hd])

/-- C5: when the parse of an inbound message does not succeed — whether it
is not an edit (non-dictionary or no collabedit_type key) or carries an
unrecognized discriminator — nothing is pushed onto the queue and the
dispatcher returns to listening with the queue unchanged. -/
theorem C5_failed_decode_not_enqueued (m : PP_Var) (q : List collabedit_T)
    (h : js_decode m = DecodeResult.notAnEdit ∨
      js_decode m = DecodeResult.unknownKind) :
    js_msgloop_step m q = q := by
  unfold js_msgloop_step
  rcases h with h | h <;> rw [h]

/-- C5 witness: a non-dictionary message (an int var) and a dictionary with
the unrecognized discriminator "frobnicate" both leave the queue empty. -/
theorem C5_witness :
    js_msgloop_step (PP_Var.int32 7) [] = ([] : List collabedit_T) ∧
    js_msgloop_step (PP_Var.dict [(type_key, PP_Var.str "frobnicate")]) [] =
      ([] : List collabedit_T) :=
  ⟨C5_failed_decode_not_enqueued _ _ (Or.inl rfl),
    C5_failed_decode_not_enqueued _ _ (Or.inr (by decide))⟩

/-- C6: for every EditOperation, the encoder emits a WireMessage holding
exactly the keys of its variant, in insertion order, and the discriminator
value is exactly the corresponding lowercase snake_case string. -/
theorem C6_encode_exact_keys (e : collabedit_T) :
    ((collab_remoteapply e).map Prod.fst,
      dictGet (collab_remoteapply e) type_key) =
    (match e with
      | collabedit_T.append_line _ _ =>
          (["collabedit_type", "line", "text"], PP_Var.str "append_line")
      | collabedit_T.insert_text _ _ _ =>
          (["collabedit_type", "line", "index", "text"],
            PP_Var.str "insert_text")
      | collabedit_T.remove_line _ =>
          (["collabedit_type", "line"], PP_Var.str "remove_line")
      | collabedit_T.delete_text _ _ _ =>
          (["collabedit_type", "line", "index", "length"],
            PP_Var.str "delete_text")
      | collabedit_T.replace_line _ _ =>
          (["collabedit_type", "line", "text"], PP_Var.str "replace_line")) := by
  cases e <;> rfl

lemma heapLookup_concat (h : Heap) (s : Option String) :
    heapLookup (h ++ [s]) h.length = s := by
  simp [heapLookup, List.get?_eq_getElem?, List.getElem?_concat_length]

lemma heapLookup_set_ne (h : Heap) (a t : Nat) (s : Option String)
    (hne : a ≠ t) :
    heapLookup (heapSet h a s) t = heapLookup h t := by
  simp [heapLookup, heapSet, List.get?_eq_getElem?, List.getElem?_set_ne hne]

/-- C7: a successfully decoded edit owns a deep copy of the wire text.  The
buffer address is at or above the pre-decode allocation frontier — so it is
distinct from every buffer the bridge or the message owned before the
decode — it holds exactly the message's text value, and overwriting or
freeing any pre-existing buffer leaves the edit's text unchanged. -/
theorem C7_text_deep_copy (h : Heap) (entries : List (String × PP_Var))
    (h2 : Heap) (e : collabedit_H)
    (hd : js_decode_h h (PP_Var.dict entries) = (h2, DecodeResultH.ok e))
    (t : Nat) (ht : textAddrH e = some t) :
    h.length ≤ t ∧
    heapLookup h2 t = some (var_to_cstr (dictGet entries text_key)) ∧
    ∀ a, a < h.length → ∀ s, heapLookup (heapSet h2 a s) t = heapLookup h2 t := by
  simp only [js_decode_h, var_to_cstr_h] at hd
  split at hd
  · split at hd
    · injection hd with hh hr
      injection hr with he
      subst hh; subst he
      simp only [textAddrH] at ht
      injection ht with ht2
      subst ht2
      refine ⟨Nat.le_refl _, heapLookup_concat h _, ?_⟩
      intro a ha s
      exact heapLookup_set_ne _ a _ s (by omega)
    · split at hd
      · injection hd with hh hr
        injection hr with he
        subst hh; subst he
        simp only [textAddrH] at ht
        injection ht with ht2
        subst ht2
        refine ⟨Nat.le_refl _, heapLookup_concat h _, ?_⟩
        intro a ha s
        exact heapLookup_set_ne _ a _ s (by omega)
      · split at hd
        · injection hd with hh hr
          injection hr with he
          subst he
          simp only [textAddrH] at ht
          exact Option.noConfusion ht
        · split at hd
          · injection hd with hh hr
            injection hr with he
            subst he
            simp only [textAddrH] at ht
            exact Option.noConfusion ht
          · split at hd
            · injection hd with hh hr
              injection hr with he
              subst hh; subst he
              simp only [textAddrH] at ht
              injection ht with ht2
              subst ht2
              refine ⟨Nat.le_refl _, heapLookup_concat h _, ?_⟩
              intro a ha s
              exact heapLookup_set_ne _ a _ s (by omega)
            · exact DecodeResultH.noConfusion (congrArg Prod.snd hd)
  · exact DecodeResultH.noConfusion (congrArg Prod.snd hd)

/-- C7 witness: decoding an append_line message over a heap holding one
bridge-owned buffer copies the text to the fresh address 1; freeing the
bridge buffer at address 0 afterwards leaves the edit's text intact. -/
theorem C7_witness :
    heapLookup (heapSet ([some "wire", some "hello"] : Heap) 0 none) 1 =
      heapLookup ([some "wire", some "hello"] : Heap) 1 := by
  have h := C7_text_deep_copy [some "wire"]
      [(type_key, PP_Var.str "append_line"), (line_key, PP_Var.int32 4),
        (text_key, PP_Var.str "hello")]
      [some "wire", some "hello"] (collabedit_H.append_line 4 1) (by decide) 1 rfl
  exact h.2.2 0 (by decide) none

/-- C8 counterexample: a concrete publish call whose bridge send fails (JS
receives nothing) returns to the caller exactly what a successful call
returns — the C function's return type is void and PostMessage exposes no
status — so the failure is not reported to the editor core, refuting the
claim. -/
theorem C8_counterexample :
    collab_remoteapply_call (collabedit_T.remove_line 7) false = (none, ()) ∧
    (collab_remoteapply_call (collabedit_T.remove_line 7) false).2 =
      (collab_remoteapply_call (collabedit_T.remove_line 7) true).2 :=
  ⟨rfl, rfl⟩

/-- C8 amended: collab_remoteapply silently discards bridge send failures —
for every edit, the caller-visible result of publish is identical whether
the underlying send succeeds or fails, since PostMessage returns void and
collab_remoteapply returns void. -/
theorem C8_send_failure_invisible_to_caller (e : collabedit_T)
    (d1 d2 : Bool) :
    (collab_remoteapply_call e d1).2 = (collab_remoteapply_call e d2).2 := rfl

lemma qstep_invariant (b : Bool) (s : QState) :
    (qstep b s).consumed ++ (qstep b s).queue ++ (qstep b s).pending =
      s.consumed ++ s.queue ++ s.pending := by
  cases b <;> rcases s with ⟨p, q, c⟩
  · cases q with
    | nil => rfl
    | cons e qs => simp [qstep]
  · cases p with
    | nil => rfl
    | cons op ps => simp [qstep]

lemma qrun_invariant (sched : List Bool) (s : QState) :
    (qrun sched s).consumed ++ (qrun sched s).queue ++ (qrun sched s).pending =
      s.consumed ++ s.queue ++ s.pending := by
  induction sched generalizing s with
  | nil => rfl
  | cons b rest ih =>
      have h1 : qrun (b :: rest) s = qrun rest (qstep b s) := rfl
      rw [h1, ih (qstep b s), qstep_invariant]

/-- C9: under every interleaving of atomic pushes of the sequence `ops` and
concurrent pops, what the consumer has observed followed by what is still
queued and what is still pending is exactly `ops` — so the observed
sequence is precisely the pushed sequence's first elements in push order
(no loss, duplication or reordering) — and once everything is pushed and
drained the consumer has observed exactly `ops`. -/
theorem C9_fifo_exact_order (sched : List Bool) (ops : List collabedit_T) :
    (qrun sched (QState.mk ops [] [])).consumed ++
        (qrun sched (QState.mk ops [] [])).queue ++
        (qrun sched (QState.mk ops [] [])).pending = ops ∧
    (qrun sched (QState.mk ops [] [])).consumed =
      ops.take (qrun sched (QState.mk ops [] [])).consumed.length ∧
    ((qrun sched (QState.mk ops [] [])).pending = [] →
      (qrun sched (QState.mk ops [] [])).queue = [] →
      (qrun sched (QState.mk ops [] [])).consumed = ops) := by
  have h := qrun_invariant sched (QState.mk ops [] [])
  simp only [List.append_nil, List.nil_append] at h
  rcases hqr : qrun sched (QState.mk ops [] []) with ⟨P, Q, C⟩
  rw [hqr] at h
  simp only [hqr]
  dsimp only at h ⊢
  refine ⟨h, ?_, ?_⟩
  · rw [← h, List.append_assoc]
    exact (List.take_left _ _).symm
  · intro hp hq
    rw [hp, hq] at h
    simpa using h

/-- C9 witness: interleaving push, pop, push, pop over a two-operation
sequence makes the consumer observe exactly that sequence. -/
theorem C9_witness :
    (qrun [true, false, true, false]
        (QState.mk [collabedit_T.remove_line 1, collabedit_T.remove_line 2]
          [] [])).consumed =
      [collabedit_T.remove_line 1, collabedit_T.remove_line 2] :=
  (C9_fifo_exact_order [true, false, true, false]
      [collabedit_T.remove_line 1, collabedit_T.remove_line 2]).2.2
    (by decide) (by decide)

/-- C10: publishing leaves the edit untouched — collab_remoteapply returns
the heap exactly as it received it (every address, in particular the edit's
text buffer and any caller-owned memory, reads back unchanged: nothing is
written or freed), and the posted message is a pure function of the values
read through the edit. -/
theorem C10_publish_only_reads (h : Heap) (e : collabedit_H) :
    (collab_remoteapply_h h e).1 = h ∧
    (∀ a, heapLookup (collab_remoteapply_h h e).1 a = heapLookup h a) ∧
    (collab_remoteapply_h h e).2 =
      PP_Var.dict (collab_remoteapply (readback h e)) := by
  cases e <;> exact ⟨rfl, fun a => rfl, rfl⟩

end VimPepper
